import Mathlib

/-!
Verification of the QC inspection core: the job orchestrator pipeline
(`runFullInspection` in `src/backend/services/inspection.service.js`), the
HTTP routes that drive it (`src/backend/routes/inspection.routes.js`), the
optional AI enhancement step (`enhanceWithAI` in the OpenAI service) and the
observer client's reconnect/poll fallback
(`streamProgress` in `src/frontend/src/hooks/useInspection.js`).

The JavaScript sources are embedded shallowly: numbers are modelled as `ℚ`
(for SSIM values, coordinates and metrics) and `ℕ`/`ℤ` (for counts and
percentages), fallible external calls (file conversion, the comparison
engine, the enhancer) are inputs of type `Except String _` collected in an
`Env` record, and each `findByIdAndUpdate` persistence call of a pipeline run
is recorded in an explicit write trace.
-/

namespace QC

/-! ## Data model (Inspection.model.js) -/

/-- Engine/enhancer severity suggestions: `critical | important | minor`. -/
inductive Sev3
  | critical
  | important
  | minor
deriving DecidableEq, Inhabited

/-- User-assignable severities: `critical | important | minor | ignore`
(`Option Sev4` models the nullable Mongo field). -/
inductive Sev4
  | critical
  | important
  | minor
  | ignore
deriving DecidableEq, Inhabited

/-- Display colors of findings. -/
inductive Color
  | red
  | green
  | yellow
  | blue
deriving DecidableEq, Inhabited

/-- Finding status enum; the source's `'open'` is spelled `opened` because
`open` is a Lean keyword. -/
inductive FStatus
  | opened
  | classified
  | resolved
deriving DecidableEq, Inhabited

/-- Normalized bounding box `{x, y, w, h}`. -/
structure Bbox where
  x : ℚ
  y : ℚ
  w : ℚ
  h : ℚ
deriving DecidableEq, Inhabited

/-- Color palette swatch. -/
structure Swatch where
  hex : String
  name : String
  usage : String
deriving DecidableEq, Inhabited

/-- User-defined inspection zone. -/
structure Zone where
  page : ℕ
  label : String
  bbox : Bbox
deriving DecidableEq, Inhabited

/-- One detected difference (FindingSchema). -/
structure Finding where
  page : ℕ
  type : String
  severity : Option Sev4
  severity_suggestion : Option Sev3
  description : String
  bbox : Bbox
  color : Color
  pixel_diff_percent : ℚ
  color_delta_e : ℚ
  master_crop : String
  sample_crop : String
  comment : String
  status : FStatus
deriving DecidableEq, Inhabited

/-- Stored per-document file info (FileInfoSchema). -/
structure FileInfo where
  filename : String
  originalName : String
  fileSize : ℕ
  format : String
  pageCount : ℕ
  imagesBase64 : List String
deriving DecidableEq, Inhabited

/-- Job verdict. -/
inductive Verdict
  | pass
  | review
  | fail
deriving DecidableEq, Inhabited

/-- Aggregate analysis (AnalysisSchema). -/
structure Analysis where
  summary : String
  totalFindings : ℕ
  criticalCount : ℕ
  importantCount : ℕ
  minorCount : ℕ
  ignoredCount : ℕ
  masterPalette : List Swatch
  samplePalette : List Swatch
  verdict : Verdict
  overallSsim : ℚ
deriving DecidableEq, Inhabited

/-- Job lifecycle status. -/
inductive Status
  | pending
  | processing
  | inspected
  | error
deriving DecidableEq, Inhabited

/-- Persisted job record (InspectionSchema, the fields the core touches). -/
structure Job where
  status : Status
  errorMessage : String
  masterFile : FileInfo
  sampleFile : FileInfo
  inspectionZones : List Zone
  elementTolerance : ℕ
  accuracyLevel : ℕ
  checkSpelling : Bool
  spellingLanguage : String
  spellingLevel : ℕ
  findings : List Finding
  diffImages : List String
  heatmaps : List String
  analysis : Analysis
deriving DecidableEq, Inhabited

/-! ## External collaborator responses -/

/-- One difference returned by the comparison engine's `/compare`. -/
structure EngineDiff where
  type : String
  severity_suggestion : Option Sev3
  description : String
  bbox : Bbox
  pixel_diff_percent : ℚ
  color_delta_e : ℚ
  master_crop : String
  sample_crop : String
deriving DecidableEq, Inhabited

/-- Successful `/compare` response body. -/
structure EngineResult where
  differences : List EngineDiff
  diff_image : String
  heatmap : String
  overall_ssim : ℚ
  master_palette : List Swatch
  sample_palette : List Swatch
deriving DecidableEq, Inhabited

/-- Result of `convertFileToImages`. -/
structure ConvResult where
  pageCount : ℕ
  imagesBase64 : List String
  format : String
deriving DecidableEq, Inhabited

/-- One item of the post-processed enhancer response (`enhanceWithAI` maps the
model output to exactly this shape: a description capped at 200 chars or
null, and a validated severity suggestion or null). -/
structure EnhItem where
  description : Option String
  severity_suggestion : Option Sev3
deriving DecidableEq, Inhabited

/-- The environment of one pipeline run: outcomes of every external call.
`engine q` is the `/compare` response for 0-based page index `q`;
`enhancer` is the outcome of the (single) `enhanceWithAI` call, where
`.error` models a thrown exception and `.ok none` a `null` return. -/
structure Env where
  masterConv : Except String ConvResult
  sampleConv : Except String ConvResult
  engineOk : Bool
  engine : ℕ → Except String EngineResult
  apiKeyPresent : Bool
  enhancer : Except String (Option (List EnhItem))

/-- Progress/terminal events published on the SSE channel. -/
inductive Event
  | progress (stage : ℕ) (message : String) (percent : ℤ)
  | done
  | error (message : String)
deriving DecidableEq, Inhabited

/-! ## inspection.service.js -/

/-- `severityToColor` (service): switch on the severity string with default
`yellow`; in the pipeline it is only ever applied to severity suggestions. -/
def severityToColor : Option Sev3 → Color
  | some .critical => .red
  | some .important => .yellow
  | some .minor => .blue
  | none => .yellow

/-- `f.severity || f.severity_suggestion` (JS `||` on nullable enum strings). -/
def effectiveSeverity (f : Finding) : Option Sev4 :=
  match f.severity with
  | some s => some s
  | none =>
    match f.severity_suggestion with
    | some .critical => some .critical
    | some .important => some .important
    | some .minor => some .minor
    | none => none

/-- `findings.filter(f => (f.severity || f.severity_suggestion) === s).length`. -/
def countSeverity (fs : List Finding) (s : Sev4) : ℕ :=
  (fs.filter fun f => decide (effectiveSeverity f = some s)).length

/-- The verdict chain of stage 5 of `runFullInspection`. -/
def computeVerdict (criticalCount importantCount : ℕ) (avgSsim : ℚ)
    (totalFindings : ℕ) : Verdict :=
  if criticalCount > 0 then .fail
  else if importantCount > 0 ∨ avgSsim < 92 / 100 then .review
  else if totalFindings > 0 then .review
  else .pass

/-- `Math.round` on a non-negative rational: floor of `q + 1/2`. -/
def jsRound (q : ℚ) : ℤ := ⌊q + 1 / 2⌋

/-- `Number.prototype.toFixed(1)` (for summary text only). -/
def toFixed1 (q : ℚ) : String :=
  let d : ℤ := jsRound (q * 10)
  s!"{d / 10}.{(d % 10).natAbs}"

/-- `generateSummary(findings, overallSsim)`. -/
def generateSummary (findings : List Finding) (overallSsim : ℚ) : String :=
  let critical := countSeverity findings .critical
  let important := countSeverity findings .important
  let minor := countSeverity findings .minor
  let total := findings.length
  let parts : List String :=
    if total = 0 then
      ["No se detectaron diferencias entre el documento maestro y la muestra.",
       "La muestra coincide con la referencia."]
    else
      [s!"Se detectaron {total} diferencia(s) entre el documento maestro y la muestra."]
        ++ (if critical > 0 then
              [s!"{critical} hallazgo(s) de severidad crítica requieren atención inmediata."]
            else [])
        ++ (if important > 0 then
              [s!"{important} hallazgo(s) importantes necesitan revisión antes de producción."]
            else [])
        ++ (if minor > 0 then [s!"{minor} hallazgo(s) menores detectados."] else [])
  let pct := toFixed1 (overallSsim * 100)
  String.intercalate " " (parts ++ [s!"Similitud estructural global (SSIM): {pct}%."])

/-- The per-page percent: `25 + Math.round((p / Math.max(1, pageCount)) * 35)`. -/
def pagePct (p n : ℕ) : ℤ :=
  25 + jsRound ((p : ℚ) / ((max 1 n : ℕ) : ℚ) * 35)

/-- `Comparando página ${p + 1} de ${pageCount}…` -/
def pageMsg (p n : ℕ) : String :=
  s!"Comparando página {p + 1} de {n}…"

/-- The stage-3 progress event emitted before comparing page index `p`. -/
def pageEv (n p : ℕ) : Event := .progress 3 (pageMsg p n) (pagePct p n)

/-- `Motor de comparación falló (pág ${p + 1}): ${errText}` -/
def pageFailMsg (page : ℕ) (errText : String) : String :=
  s!"Motor de comparación falló (pág {page}): {errText}"

/-- Error thrown when the engine health check fails. -/
def engineDownMsg : String :=
  "El motor de comparación no está disponible. Verifica que el servicio esté en ejecución."

/-- A finding as pushed into `allFindings` for one engine difference. -/
def mkFinding (page : ℕ) (d : EngineDiff) : Finding where
  page := page
  type := d.type
  severity := none
  severity_suggestion := d.severity_suggestion
  description := d.description
  bbox := d.bbox
  color := severityToColor d.severity_suggestion
  pixel_diff_percent := d.pixel_diff_percent
  color_delta_e := d.color_delta_e
  master_crop := d.master_crop
  sample_crop := d.sample_crop
  comment := ""
  status := .opened

/-- Accumulator of the per-page comparison loop. -/
structure LoopAcc where
  findings : List Finding
  diffImages : List String
  heatmaps : List String
  masterPalette : List Swatch
  samplePalette : List Swatch
  totalSsim : ℚ
deriving DecidableEq, Inhabited

/-- The accumulator before the loop starts. -/
def initAcc : LoopAcc := ⟨[], [], [], [], [], 0⟩

/-- The loop body for a successful comparison of page index `p`. -/
def pageStep (p : ℕ) (result : EngineResult) (acc : LoopAcc) : LoopAcc where
  findings := acc.findings ++ result.differences.map (mkFinding (p + 1))
  diffImages := acc.diffImages ++ [result.diff_image]
  heatmaps := acc.heatmaps ++ [result.heatmap]
  masterPalette := if p = 0 then result.master_palette else acc.masterPalette
  samplePalette := if p = 0 then result.sample_palette else acc.samplePalette
  totalSsim := acc.totalSsim + result.overall_ssim

/-- The `for (p = 0; p < pageCount; p++)` comparison loop over the remaining
page indices: emits the page event, calls the engine, aborts everything with
the page-stamped message on a non-ok response, otherwise accumulates. -/
def comparePagesList (env : Env) (n : ℕ) :
    List ℕ → LoopAcc → List Event × Except String LoopAcc
  | [], acc => ([], .ok acc)
  | p :: ps, acc =>
    let ev := pageEv n p
    match env.engine p with
    | .error errText => ([ev], .error (pageFailMsg (p + 1) errText))
    | .ok result =>
      let rest := comparePagesList env n ps (pageStep p result acc)
      (ev :: rest.1, rest.2)

/-! ## openai.service.js application (stage 4 of the pipeline) -/

/-- In-place overwrite of one finding from one enhancer item
(`if (enhanced[i]?.description) …; if (enhanced[i]?.severity_suggestion) …`;
note an empty description string is falsy in JS and is skipped). -/
def applyEnh1 (f : Finding) (e : EnhItem) : Finding :=
  let f1 := match e.description with
    | some d => if d = "" then f else { f with description := d }
    | none => f
  match e.severity_suggestion with
  | some s => { f1 with severity_suggestion := some s, color := severityToColor (some s) }
  | none => f1

/-- `for (i = 0; i < Math.min(allFindings.length, enhanced.length); i++)`. -/
def applyEnhancementList : List Finding → List EnhItem → List Finding
  | [], _ => []
  | f :: fs, [] => f :: fs
  | f :: fs, e :: es => applyEnh1 f e :: applyEnhancementList fs es

/-- Stage 4: run the enhancer only when an API key is configured, findings are
non-empty and at most 25; any failure or null result leaves findings as-is. -/
def enhanceStage (env : Env) (fs : List Finding) : List Finding :=
  if env.apiKeyPresent = true ∧ 0 < fs.length ∧ fs.length ≤ 25 then
    match env.enhancer with
    | .ok (some es) => applyEnhancementList fs es
    | _ => fs
  else fs

/-! ## The pipeline (`runFullInspection`) -/

/-- The entry write: `{ status: 'processing', errorMessage: '' }`. -/
def entryWrite (j : Job) : Job := { j with status := .processing, errorMessage := "" }

/-- The stage-1 write of the master conversion result. -/
def masterWrite (j : Job) (c : ConvResult) : Job :=
  { j with masterFile := { j.masterFile with
      pageCount := c.pageCount, imagesBase64 := c.imagesBase64, format := c.format } }

/-- The stage-2 write of the sample conversion result. -/
def sampleWrite (j : Job) (c : ConvResult) : Job :=
  { j with sampleFile := { j.sampleFile with
      pageCount := c.pageCount, imagesBase64 := c.imagesBase64, format := c.format } }

/-- The catch-block write: `{ status: 'error', errorMessage: err.message }`. -/
def errWrite (j : Job) (msg : String) : Job :=
  { j with status := .error, errorMessage := msg }

def stage1Ev : Event := .progress 1 "Convirtiendo documento maestro a imágenes…" 5
def stage2Ev : Event := .progress 2 "Convirtiendo muestra a imágenes…" 15
def stage3Ev : Event := .progress 3 "Comparación pixel por pixel…" 25
def stage4Ev : Event := .progress 4 "Clasificando diferencias…" 65
def stage5Ev : Event := .progress 5 "Guardando resultados…" 85
def stageDoneEv : Event := .progress 5 "Inspección completada." 100

/-- The stage-5 final write assembling findings, artifacts and analysis. -/
def finalizeWrite (env : Env) (j : Job) (n : ℕ) (acc : LoopAcc) : Job :=
  let allFindings := enhanceStage env acc.findings
  let avgSsim : ℚ := if n > 0 then acc.totalSsim / (n : ℚ) else 0
  let criticalCount := countSeverity allFindings .critical
  let importantCount := countSeverity allFindings .important
  let minorCount := countSeverity allFindings .minor
  let verdict := computeVerdict criticalCount importantCount avgSsim allFindings.length
  { j with
    status := .inspected
    findings := allFindings
    diffImages := acc.diffImages
    heatmaps := acc.heatmaps
    analysis := {
      summary := generateSummary allFindings avgSsim
      totalFindings := allFindings.length
      criticalCount := criticalCount
      importantCount := importantCount
      minorCount := minorCount
      ignoredCount := 0
      masterPalette := acc.masterPalette
      samplePalette := acc.samplePalette
      verdict := verdict
      overallSsim := avgSsim } }

/-- `runFullInspection(inspection, emitProgress)`: returns the ordered list of
persisted record states (one per `findByIdAndUpdate`) and the ordered list of
emitted events. -/
def runFullInspection (env : Env) (job0 : Job) : List Job × List Event :=
  let j1 := entryWrite job0
  match env.masterConv with
  | .error e => ([j1, errWrite j1 e], [stage1Ev, .error e])
  | .ok master =>
    let j2 := masterWrite j1 master
    match env.sampleConv with
    | .error e => ([j1, j2, errWrite j2 e], [stage1Ev, stage2Ev, .error e])
    | .ok sample =>
      let j3 := sampleWrite j2 sample
      if env.engineOk = true then
        let n := min master.pageCount sample.pageCount
        let loop := comparePagesList env n (List.range n) initAcc
        match loop.2 with
        | .error msg =>
          ([j1, j2, j3, errWrite j3 msg],
           [stage1Ev, stage2Ev, stage3Ev] ++ loop.1 ++ [.error msg])
        | .ok acc =>
          ([j1, j2, j3, finalizeWrite env j3 n acc],
           [stage1Ev, stage2Ev, stage3Ev] ++ loop.1
             ++ [stage4Ev, stage5Ev, stageDoneEv, .done])
      else
        ([j1, j2, j3, errWrite j3 engineDownMsg],
         [stage1Ev, stage2Ev, .error engineDownMsg])

/-- The record state stored after a run finishes (last persisted write). -/
def runRecord (env : Env) (job0 : Job) : Job :=
  ((runFullInspection env job0).1).getLastD job0

/-! ## inspection.routes.js — POST /:id/start -/

/-- Response of the start route (job present). -/
inductive StartResp
  | alreadyInspected
  | inProgress
  | accepted
deriving DecidableEq, Inhabited

/-- Optional body fields of the start request; `none` models an absent (or,
for zones, unparseable) field, and `spellingLanguage` is only taken when
truthy. -/
structure StartParams where
  inspectionZones : Option (List Zone)
  checkSpelling : Option Bool
  spellingLanguage : Option String
  spellingLevel : Option ℕ
deriving DecidableEq, Inhabited

/-- The `updateFields` patch of the start route (spelling options). -/
def applySpelling (ps : StartParams) (j : Job) : Job :=
  let j1 := match ps.checkSpelling with
    | some b => { j with checkSpelling := b }
    | none => j
  let j2 := match ps.spellingLanguage with
    | some s => { j1 with spellingLanguage := s }
    | none => j1
  match ps.spellingLevel with
  | some lvl => { j2 with spellingLevel := min 100 lvl }
  | none => j2

/-- Whether `updateFields` is non-empty. -/
def hasSpellingUpdate (ps : StartParams) : Bool :=
  ps.checkSpelling.isSome || ps.spellingLanguage.isSome || ps.spellingLevel.isSome

/-- The route's pre-spawn persistence: the zones write (when a zone array was
provided) followed by the spelling-options write (when any was provided);
returns the writes and the resulting in-memory job handed to the pipeline. -/
def paramWrites (ps : StartParams) (j : Job) : List Job × Job :=
  let withZones := match ps.inspectionZones with
    | some zs => ([{ j with inspectionZones := zs }], { j with inspectionZones := zs })
    | none => ([], j)
  if hasSpellingUpdate ps then
    (withZones.1 ++ [applySpelling ps withZones.2], applySpelling ps withZones.2)
  else withZones

/-- Outcome of one start request: response, whether a pipeline run was
spawned, the record writes it causes (route + pipeline) and the events the
spawned run emits. -/
structure StartResult where
  resp : StartResp
  spawned : Bool
  writes : List Job
  events : List Event

/-- `POST /api/inspection/:id/start` for an existing job: `inspected` and
`processing` return immediately without touching anything; otherwise the body
options are persisted, 202 is returned and `runFullInspection` is spawned. -/
def startInspection (env : Env) (ps : StartParams) (job : Job) : StartResult :=
  match job.status with
  | .inspected => ⟨.alreadyInspected, false, [], []⟩
  | .processing => ⟨.inProgress, false, [], []⟩
  | _ =>
    let pw := paramWrites ps job
    let run := runFullInspection env pw.2
    ⟨.accepted, true, pw.1 ++ run.1, run.2⟩

/-! ## inspection.routes.js — GET /:id/stream -/

/-- What opening the SSE stream does before any live event can arrive. -/
structure StreamOpenResult where
  found : Bool
  immediateEvents : List Event
  registered : Bool
deriving DecidableEq, Inhabited

/-- `GET /api/inspection/:id/stream`: missing job is a 404; a job already
`inspected` gets a `done` event and the response is closed unregistered; any
other status registers the client in the per-job SSE set (heartbeats only
until the orchestrator publishes). -/
def streamOpen : Option Status → StreamOpenResult
  | none => ⟨false, [], false⟩
  | some .inspected => ⟨true, [.done], false⟩
  | some _ => ⟨true, [], true⟩

/-! ## inspection.routes.js — PUT /:id/findings/:findingId -/

/-- The color table of the classification route (only written for a non-null
new severity). -/
def classifyColor : Sev4 → Color
  | .critical => .red
  | .important => .yellow
  | .minor => .blue
  | .ignore => .green

/-- Body of the classification request: `severity` absent / null /
a concrete level, and an optional comment. -/
structure ClassifyParams where
  severity : Option (Option Sev4)
  comment : Option String
deriving DecidableEq, Inhabited

/-- The `$set` patch applied to the matched finding. -/
def applyClassify (p : ClassifyParams) (f : Finding) : Finding :=
  let f1 := match p.severity with
    | none => f
    | some sv =>
      let f2 := { f with severity := sv,
                         status := if sv.isSome then FStatus.classified else FStatus.opened }
      match sv with
      | some s => { f2 with color := classifyColor s }
      | none => f2
  match p.comment with
  | none => f1
  | some c => { f1 with comment := c.take 500 }

/-- `findings.filter(f => f.severity === s).length` (the recount after
classification uses the explicit severity only, no suggestion fallback). -/
def countExplicit (fs : List Finding) (s : Sev4) : ℕ :=
  (fs.filter fun f => decide (f.severity = some s)).length

/-- `PUT /api/inspection/:id/findings/:findingId` with the finding identified
by its index: patches the finding, then recomputes the four severity counts
of `analysis` from the updated findings array. -/
def classifyFinding (job : Job) (idx : ℕ) (p : ClassifyParams) : Option Job :=
  match job.findings[idx]? with
  | none => none
  | some f =>
    let found := job.findings.set idx (applyClassify p f)
    some { job with
      findings := found
      analysis := { job.analysis with
        criticalCount := countExplicit found .critical
        importantCount := countExplicit found .important
        minorCount := countExplicit found .minor
        ignoredCount := countExplicit found .ignore } }

/-! ## useInspection.js — streamProgress (observer client) -/

/-- What the observer has signalled to its callbacks. -/
inductive ObsSignal
  | waiting
  | completed
  | failed (msg : String)
deriving DecidableEq, Inhabited

/-- Observer-client state: `closed` after cleanup, `attempts` the reconnect
counter, `live` whether an EventSource is open, `timer` the delay (ms) of the
pending `pollStatus` timeout, if any. -/
structure ObsState where
  closed : Bool
  attempts : ℕ
  live : Bool
  timer : Option ℕ
  signal : ObsSignal
deriving DecidableEq, Inhabited

def MAX_RECONNECT : ℕ := 10

/-- `cleanup()`. -/
def obsCleanup (s : ObsState) : ObsState :=
  { s with closed := true, live := false, timer := none }

/-- `connect()`: bumps the attempt counter and opens a new EventSource. -/
def obsConnect (s : ObsState) : ObsState :=
  if s.closed = true then s else { s with attempts := s.attempts + 1, live := true }

/-- The state right after `streamProgress` is invoked. -/
def obsInit : ObsState := obsConnect ⟨false, 0, false, none, .waiting⟩

/-- `es.onerror`: close the source and schedule `pollStatus` after
`Math.min(2000 * reconnectAttempts, 10000)` ms. -/
def obsOnTransportError (s : ObsState) : ObsState :=
  if s.closed = true then s
  else { s with live := false, timer := some (min (2000 * s.attempts) 10000) }

/-- The `progress` listener: resets the reconnect counter. -/
def obsOnProgress (s : ObsState) : ObsState :=
  if s.closed = true then s else { s with attempts := 0 }

/-- The `done` listener: cleanup and signal completion. -/
def obsOnDone (s : ObsState) : ObsState :=
  if s.closed = true then s else { obsCleanup s with signal := .completed }

/-- The `error` listener: cleanup and signal failure with the payload. -/
def obsOnErrorEvent (s : ObsState) (msg : String) : ObsState :=
  if s.closed = true then s else { obsCleanup s with signal := .failed msg }

/-- Outcome of the status fetch inside `pollStatus`. -/
inductive PollResult
  | fetched (status : Status) (errorMessage : String)
  | fetchFailed
deriving DecidableEq, Inhabited

/-- `pollStatus()` firing: terminal statuses stop and signal; otherwise retry
the live channel while under `MAX_RECONNECT` attempts, else re-poll in
3000 ms; a failed fetch also re-polls in 3000 ms. -/
def obsOnPollTimer (s : ObsState) (r : PollResult) : ObsState :=
  if s.closed = true then s
  else
    let s0 := { s with timer := none }
    match r with
    | .fetched .inspected _ => { obsCleanup s0 with signal := .completed }
    | .fetched .error m =>
      { obsCleanup s0 with signal := .failed (if m = "" then "Inspection failed" else m) }
    | .fetched _ _ =>
      if s0.attempts < MAX_RECONNECT then obsConnect s0
      else { s0 with timer := some 3000 }
    | .fetchFailed => { s0 with timer := some 3000 }

/-! ## Specification-side definitions

These two definitions follow the words of the specification (not the code)
and exist to be compared with the embedded source functions, together with a
few derived notions used to state the claims. -/

/-- Spec §3/§8: display color as a pure function of severity, falling back to
`severity_suggestion` when severity is unset: critical→red, important→yellow,
minor→blue, ignore→green, unclassified→yellow. -/
def derivedColorSpec (severity : Option Sev4) (suggestion : Option Sev3) : Color :=
  match severity with
  | some .critical => .red
  | some .important => .yellow
  | some .minor => .blue
  | some .ignore => .green
  | none =>
    match suggestion with
    | some .critical => .red
    | some .important => .yellow
    | some .minor => .blue
    | none => .yellow

/-- Spec §4.1.6: the verdict tie-break table as a function of
`(criticalCount, importantCount, overallSsim, totalFindings)`. -/
def verdictSpec (criticalCount importantCount : ℕ) (overallSsim : ℚ)
    (totalFindings : ℕ) : Verdict :=
  if criticalCount > 0 then .fail
  else if importantCount > 0 ∨ overallSsim < 92 / 100 then .review
  else if totalFindings > 0 then .review
  else .pass

/-- Linear interpolation, for the spec's "percent interpolates linearly from
25 to 60 across pages". -/
def lerp (a b t : ℚ) : ℚ := a + (b - a) * t

/-- The percent values of the progress events of an event list, in order. -/
def progressPercents (evs : List Event) : List ℤ :=
  evs.filterMap fun e =>
    match e with
    | .progress _ _ pct => some pct
    | _ => none

/-- Whether an `Except` is a success (`response.ok`). -/
def isOkB {ε α : Type} : Except ε α → Bool
  | .ok _ => true
  | .error _ => false

/-- The payload of a successful engine response (default junk otherwise). -/
def okResult (env : Env) (q : ℕ) : EngineResult :=
  match env.engine q with
  | .ok r => r
  | .error _ => default

/-- The `overall_ssim` returned by the engine for page index `q`. -/
def ssimAt (env : Env) (q : ℕ) : ℚ := (okResult env q).overall_ssim

/-- The findings created from the engine response for page index `q`. -/
def pageFindings (env : Env) (q : ℕ) : List Finding :=
  (okResult env q).differences.map (mkFinding (q + 1))

/-- Transitions the spec's status state machine allows (pending→processing,
error→processing on retry, processing→{inspected, error}). -/
def allowedTransition (a b : Status) : Prop :=
  (a = .pending ∧ b = .processing) ∨ (a = .error ∧ b = .processing)
    ∨ (a = .processing ∧ (b = .inspected ∨ b = .error))

/-- A persisted-status step: either no change or an allowed transition. -/
def stepOk (a b : Status) : Prop := a = b ∨ allowedTransition a b

/-! ## Characterization of the comparison loop -/

theorem engine_ok_of_isOkB (env : Env) (q : ℕ) (h : isOkB (env.engine q) = true) :
    env.engine q = .ok (okResult env q) := by
  cases hq : env.engine q with
  | ok r => simp [okResult, hq]
  | error e => rw [hq] at h; simp [isOkB] at h

/-- Unfolded result of the loop when every listed page compares successfully. -/
theorem comparePagesList_ok (env : Env) (n : ℕ) (ps : List ℕ) :
    ∀ (acc : LoopAcc), (∀ q ∈ ps, isOkB (env.engine q) = true) →
      comparePagesList env n ps acc =
        (ps.map (pageEv n),
         .ok { findings := acc.findings ++ (ps.map (pageFindings env)).flatten
               diffImages := acc.diffImages ++ ps.map (fun q => (okResult env q).diff_image)
               heatmaps := acc.heatmaps ++ ps.map (fun q => (okResult env q).heatmap)
               masterPalette :=
                 if 0 ∈ ps then (okResult env 0).master_palette else acc.masterPalette
               samplePalette :=
                 if 0 ∈ ps then (okResult env 0).sample_palette else acc.samplePalette
               totalSsim := acc.totalSsim + (ps.map (ssimAt env)).sum }) := by
  induction ps with
  | nil => intro acc _; simp [comparePagesList]
  | cons p ps ih =>
    intro acc h
    have hp := engine_ok_of_isOkB env p (h p (by simp))
    have hrest := ih (pageStep p (okResult env p) acc) (fun q hq => h q (by simp [hq]))
    simp only [comparePagesList, hp, hrest]
    refine Prod.ext rfl ?_
    simp only [Except.ok.injEq, LoopAcc.mk.injEq, pageStep]
    refine ⟨by simp [pageFindings], by simp, by simp, ?_, ?_, by simp [ssimAt]; ring⟩
    · by_cases h0 : p = 0
      · subst h0; simp
      · simp [h0, List.mem_cons, Ne.symm h0]
    · by_cases h0 : p = 0
      · subst h0; simp
      · simp [h0, List.mem_cons, Ne.symm h0]

/-- The loop accumulator after a fully successful run over pages `0..n-1`. -/
def successAcc (env : Env) (n : ℕ) : LoopAcc where
  findings := ((List.range n).map (pageFindings env)).flatten
  diffImages := (List.range n).map fun q => (okResult env q).diff_image
  heatmaps := (List.range n).map fun q => (okResult env q).heatmap
  masterPalette := if 0 ∈ List.range n then (okResult env 0).master_palette else []
  samplePalette := if 0 ∈ List.range n then (okResult env 0).sample_palette else []
  totalSsim := ((List.range n).map (ssimAt env)).sum

theorem comparePagesList_range_ok (env : Env) (n : ℕ)
    (h : ∀ q, q < n → isOkB (env.engine q) = true) :
    comparePagesList env n (List.range n) initAcc =
      ((List.range n).map (pageEv n), .ok (successAcc env n)) := by
  rw [comparePagesList_ok env n (List.range n) initAcc
    (fun q hq => h q (List.mem_range.1 hq))]
  simp [successAcc, initAcc]

/-- The loop aborts at the first failing page, having emitted exactly the
events of the pages up to and including it. -/
theorem comparePagesList_fail (env : Env) (n p : ℕ) (errText : String)
    (hp : env.engine p = .error errText) (ps2 : List ℕ) (ps1 : List ℕ) :
    ∀ (acc : LoopAcc), (∀ q ∈ ps1, isOkB (env.engine q) = true) →
      comparePagesList env n (ps1 ++ p :: ps2) acc =
        ((ps1 ++ [p]).map (pageEv n), .error (pageFailMsg (p + 1) errText)) := by
  induction ps1 with
  | nil => intro acc _; simp [comparePagesList, hp]
  | cons q qs ih =>
    intro acc h
    have hq := engine_ok_of_isOkB env q (h q (by simp))
    have hrest := ih (pageStep q (okResult env q) acc) (fun x hx => h x (by simp [hx]))
    simp only [List.cons_append, comparePagesList, List.append_eq, hq, hrest, List.map_cons]

/-- Whatever the engine does, the loop emits the page events of a prefix of
the listed pages. -/
theorem comparePagesList_events (env : Env) (n : ℕ) (ps : List ℕ) :
    ∀ (acc : LoopAcc), ∃ k, (comparePagesList env n ps acc).1 = (ps.take k).map (pageEv n) := by
  induction ps with
  | nil => intro acc; exact ⟨0, by simp [comparePagesList]⟩
  | cons p ps ih =>
    intro acc
    cases hp : env.engine p with
    | error e => exact ⟨1, by simp [comparePagesList, hp]⟩
    | ok r =>
      obtain ⟨k, hk⟩ := ih (pageStep p r acc)
      exact ⟨k + 1, by simp [comparePagesList, hp, hk]⟩

/-- `List.range n` split at an interior position. -/
theorem range_split (p n : ℕ) (h : p < n) :
    List.range n = List.range p ++ p :: List.range' (p + 1) (n - (p + 1)) := by
  have h1 := List.range'_append 0 p (n - p) 1
  simp only [Nat.zero_add, Nat.one_mul] at h1
  have h2 : List.range' p (n - p) = p :: List.range' (p + 1) (n - (p + 1)) := by
    have hnp : n - p = n - (p + 1) + 1 := by omega
    rw [hnp, List.range'_succ]
  conv_lhs => rw [List.range_eq_range', show n = n - p + p by omega, ← h1]
  rw [h2, ← List.range_eq_range']

/-! ## Characterization of full runs -/

/-- A fully successful pipeline run: the four persisted writes and the
complete event sequence. -/
theorem run_success (env : Env) (job : Job) (master sample : ConvResult)
    (hm : env.masterConv = .ok master) (hs : env.sampleConv = .ok sample)
    (he : env.engineOk = true)
    (hEng : ∀ q, q < min master.pageCount sample.pageCount → isOkB (env.engine q) = true) :
    runFullInspection env job =
      ([entryWrite job, masterWrite (entryWrite job) master,
        sampleWrite (masterWrite (entryWrite job) master) sample,
        finalizeWrite env (sampleWrite (masterWrite (entryWrite job) master) sample)
          (min master.pageCount sample.pageCount)
          (successAcc env (min master.pageCount sample.pageCount))],
       [stage1Ev, stage2Ev, stage3Ev]
         ++ (List.range (min master.pageCount sample.pageCount)).map
              (pageEv (min master.pageCount sample.pageCount))
         ++ [stage4Ev, stage5Ev, stageDoneEv, .done]) := by
  simp only [runFullInspection, hm, hs, he, if_true,
    comparePagesList_range_ok env _ hEng]

/-- A run that dies inside the page loop: three stage writes, the error
write, and the events up to the terminal `error`. -/
theorem run_loopFail (env : Env) (job : Job) (master sample : ConvResult)
    (hm : env.masterConv = .ok master) (hs : env.sampleConv = .ok sample)
    (he : env.engineOk = true) (evs : List Event) (msg : String)
    (hloop : comparePagesList env (min master.pageCount sample.pageCount)
        (List.range (min master.pageCount sample.pageCount)) initAcc = (evs, .error msg)) :
    runFullInspection env job =
      ([entryWrite job, masterWrite (entryWrite job) master,
        sampleWrite (masterWrite (entryWrite job) master) sample,
        errWrite (sampleWrite (masterWrite (entryWrite job) master) sample) msg],
       [stage1Ev, stage2Ev, stage3Ev] ++ evs ++ [.error msg]) := by
  simp only [runFullInspection, hm, hs, he, if_true, hloop]

/-- The record stored by a fully successful run. -/
theorem runRecord_success (env : Env) (job : Job) (master sample : ConvResult)
    (hm : env.masterConv = .ok master) (hs : env.sampleConv = .ok sample)
    (he : env.engineOk = true)
    (hEng : ∀ q, q < min master.pageCount sample.pageCount → isOkB (env.engine q) = true) :
    runRecord env job =
      finalizeWrite env (sampleWrite (masterWrite (entryWrite job) master) sample)
        (min master.pageCount sample.pageCount)
        (successAcc env (min master.pageCount sample.pageCount)) := by
  simp [runRecord, run_success env job master sample hm hs he hEng]

/-- Run characterization: master conversion fails. -/
theorem run_masterFail (env : Env) (job : Job) (e : String)
    (hm : env.masterConv = .error e) :
    runFullInspection env job =
      ([entryWrite job, errWrite (entryWrite job) e], [stage1Ev, .error e]) := by
  simp only [runFullInspection, hm]

/-- Run characterization: sample conversion fails. -/
theorem run_sampleFail (env : Env) (job : Job) (master : ConvResult) (e : String)
    (hm : env.masterConv = .ok master) (hs : env.sampleConv = .error e) :
    runFullInspection env job =
      ([entryWrite job, masterWrite (entryWrite job) master,
        errWrite (masterWrite (entryWrite job) master) e],
       [stage1Ev, stage2Ev, .error e]) := by
  simp only [runFullInspection, hm, hs]

/-- Run characterization: the engine health check fails. -/
theorem run_engineDown (env : Env) (job : Job) (master sample : ConvResult)
    (hm : env.masterConv = .ok master) (hs : env.sampleConv = .ok sample)
    (he : env.engineOk = false) :
    runFullInspection env job =
      ([entryWrite job, masterWrite (entryWrite job) master,
        sampleWrite (masterWrite (entryWrite job) master) sample,
        errWrite (sampleWrite (masterWrite (entryWrite job) master) sample) engineDownMsg],
       [stage1Ev, stage2Ev, .error engineDownMsg]) := by
  simp only [runFullInspection, hm, hs, he, Bool.false_eq_true, if_false]

/-- Run characterization: the loop returns successfully (any accumulator). -/
theorem run_loopOk (env : Env) (job : Job) (master sample : ConvResult)
    (hm : env.masterConv = .ok master) (hs : env.sampleConv = .ok sample)
    (he : env.engineOk = true) (evs : List Event) (acc : LoopAcc)
    (hloop : comparePagesList env (min master.pageCount sample.pageCount)
        (List.range (min master.pageCount sample.pageCount)) initAcc = (evs, .ok acc)) :
    runFullInspection env job =
      ([entryWrite job, masterWrite (entryWrite job) master,
        sampleWrite (masterWrite (entryWrite job) master) sample,
        finalizeWrite env (sampleWrite (masterWrite (entryWrite job) master) sample)
          (min master.pageCount sample.pageCount) acc],
       [stage1Ev, stage2Ev, stage3Ev] ++ evs
         ++ [stage4Ev, stage5Ev, stageDoneEv, .done]) := by
  simp only [runFullInspection, hm, hs, he, if_true, hloop]

@[simp] theorem entryWrite_status (j : Job) : (entryWrite j).status = .processing := rfl
@[simp] theorem masterWrite_status (j : Job) (c : ConvResult) :
    (masterWrite j c).status = j.status := rfl
@[simp] theorem sampleWrite_status (j : Job) (c : ConvResult) :
    (sampleWrite j c).status = j.status := rfl
@[simp] theorem errWrite_status (j : Job) (m : String) : (errWrite j m).status = .error := rfl
@[simp] theorem finalizeWrite_status (env : Env) (j : Job) (n : ℕ) (acc : LoopAcc) :
    (finalizeWrite env j n acc).status = .inspected := rfl

/-! ## C1 — persisted analysis of a completed job -/

/-- C1: for every job whose pipeline completes successfully, the persisted
analysis has `overallSsim` equal to the arithmetic mean of the engine's
per-page `overall_ssim` over the `min(masterPageCount, samplePageCount)`
compared pages, per-severity counts (with the `severity_suggestion` fallback)
matching the persisted findings, and the verdict given by the tie-break table
(`fail` on any critical; else `review` on any important or `overallSsim` below
0.92; else `review` on any finding; else `pass`). -/
theorem completed_analysis_mean_counts_verdict (env : Env) (job : Job)
    (master sample : ConvResult)
    (hm : env.masterConv = .ok master) (hs : env.sampleConv = .ok sample)
    (he : env.engineOk = true)
    (hEng : ∀ q, q < min master.pageCount sample.pageCount → isOkB (env.engine q) = true) :
    (runRecord env job).status = .inspected
    ∧ (0 < min master.pageCount sample.pageCount →
        (runRecord env job).analysis.overallSsim =
          (((List.range (min master.pageCount sample.pageCount)).map (ssimAt env)).sum)
            / ((((List.range (min master.pageCount sample.pageCount)).map (ssimAt env)).length : ℚ)))
    ∧ (runRecord env job).analysis.criticalCount
        = countSeverity (runRecord env job).findings .critical
    ∧ (runRecord env job).analysis.importantCount
        = countSeverity (runRecord env job).findings .important
    ∧ (runRecord env job).analysis.minorCount
        = countSeverity (runRecord env job).findings .minor
    ∧ (runRecord env job).analysis.verdict =
        verdictSpec (runRecord env job).analysis.criticalCount
          (runRecord env job).analysis.importantCount
          (runRecord env job).analysis.overallSsim
          (runRecord env job).findings.length := by
  rw [runRecord_success env job master sample hm hs he hEng]
  refine ⟨rfl, ?_, rfl, rfl, rfl, ?_⟩
  · intro hn
    show (if 0 < min master.pageCount sample.pageCount then
            (successAcc env (min master.pageCount sample.pageCount)).totalSsim
              / ((min master.pageCount sample.pageCount : ℕ) : ℚ)
          else 0) = _
    rw [if_pos hn]
    simp [successAcc]
  · rfl

/-! Concrete fixtures used by witnesses. -/

def wMaster : ConvResult := ⟨2, ["m0", "m1"], "pdf"⟩
def wSample : ConvResult := ⟨2, ["s0", "s1"], "pdf"⟩

def wDiff : EngineDiff :=
  ⟨"color", some .critical, "cambio de color", ⟨1/10, 1/10, 1/5, 1/5⟩, 5, 2, "", ""⟩

def wRes0 : EngineResult :=
  ⟨[wDiff], "diff0", "heat0", 19/20, [⟨"#ffffff", "blanco", "40%"⟩], [⟨"#000000", "negro", "60%"⟩]⟩

def wRes1 : EngineResult := ⟨[], "diff1", "heat1", 9/10, [], []⟩

/-- A two-page environment where every external call succeeds. -/
def wEnv : Env where
  masterConv := .ok wMaster
  sampleConv := .ok wSample
  engineOk := true
  engine := fun q => if q = 0 then .ok wRes0 else .ok wRes1
  apiKeyPresent := false
  enhancer := .ok none

def wJob : Job := default

/-- Witness for C1: the hypotheses hold for `wEnv` and the conclusion follows
by applying the theorem there. -/
theorem completed_analysis_mean_counts_verdict_witness :
    (∀ q, q < min wMaster.pageCount wSample.pageCount → isOkB (wEnv.engine q) = true)
    ∧ ((runRecord wEnv wJob).status = .inspected
       ∧ (0 < min wMaster.pageCount wSample.pageCount →
           (runRecord wEnv wJob).analysis.overallSsim =
             (((List.range (min wMaster.pageCount wSample.pageCount)).map (ssimAt wEnv)).sum)
               / ((((List.range (min wMaster.pageCount wSample.pageCount)).map (ssimAt wEnv)).length : ℚ)))
       ∧ (runRecord wEnv wJob).analysis.criticalCount
           = countSeverity (runRecord wEnv wJob).findings .critical
       ∧ (runRecord wEnv wJob).analysis.importantCount
           = countSeverity (runRecord wEnv wJob).findings .important
       ∧ (runRecord wEnv wJob).analysis.minorCount
           = countSeverity (runRecord wEnv wJob).findings .minor
       ∧ (runRecord wEnv wJob).analysis.verdict =
           verdictSpec (runRecord wEnv wJob).analysis.criticalCount
             (runRecord wEnv wJob).analysis.importantCount
             (runRecord wEnv wJob).analysis.overallSsim
             (runRecord wEnv wJob).findings.length) :=
  ⟨by decide,
   completed_analysis_mean_counts_verdict wEnv wJob wMaster wSample rfl rfl rfl (by decide)⟩

/-! ## C10 — a job with zero comparable pages -/

/-- C10: when `min(masterPageCount, samplePageCount) = 0` the pipeline still
completes: status `inspected`, no findings, `overallSsim = 0` (the
division-by-zero fallback) and verdict `review` (0 is below the 0.92
threshold), not `pass`. -/
theorem zero_pages_inspected_review (env : Env) (job : Job)
    (master sample : ConvResult)
    (hm : env.masterConv = .ok master) (hs : env.sampleConv = .ok sample)
    (he : env.engineOk = true)
    (h0 : min master.pageCount sample.pageCount = 0) :
    (runRecord env job).status = .inspected
    ∧ (runRecord env job).findings = []
    ∧ (runRecord env job).analysis.overallSsim = 0
    ∧ (runRecord env job).analysis.verdict = .review := by
  have hEng : ∀ q, q < min master.pageCount sample.pageCount → isOkB (env.engine q) = true := by
    intro q hq; rw [h0] at hq; exact absurd hq (Nat.not_lt_zero q)
  rw [runRecord_success env job master sample hm hs he hEng, h0]
  have hemp : enhanceStage env ((successAcc env 0).findings) = [] := by
    simp [successAcc, enhanceStage]
  refine ⟨rfl, hemp, by simp [finalizeWrite], ?_⟩
  show computeVerdict _ _ _ _ = _
  rw [hemp]
  simp [countSeverity, computeVerdict]

/-! ## C3 — a failing page aborts the whole job -/

/-- C3: if the engine returns a non-success response for page `p+1` (1-based)
the whole job aborts: the record ends in status `error` with a message
embedding the page number and the engine's message, the run's events end with
a terminal `error` event (no stage-4/5 events, no `done`), and the findings,
diff artifacts and analysis of the record are untouched (nothing from the
earlier successful pages is persisted). -/
theorem page_failure_aborts_job (env : Env) (job : Job) (master sample : ConvResult)
    (p : ℕ) (errText : String)
    (hm : env.masterConv = .ok master) (hs : env.sampleConv = .ok sample)
    (he : env.engineOk = true)
    (hq : ∀ q, q < p → isOkB (env.engine q) = true)
    (hp : env.engine p = .error errText)
    (hpn : p < min master.pageCount sample.pageCount) :
    (runRecord env job).status = .error
    ∧ (runRecord env job).errorMessage = pageFailMsg (p + 1) errText
    ∧ (runRecord env job).findings = job.findings
    ∧ (runRecord env job).diffImages = job.diffImages
    ∧ (runRecord env job).heatmaps = job.heatmaps
    ∧ (runRecord env job).analysis = job.analysis
    ∧ (runFullInspection env job).2 =
        [stage1Ev, stage2Ev, stage3Ev]
          ++ (List.range (p + 1)).map (pageEv (min master.pageCount sample.pageCount))
          ++ [Event.error (pageFailMsg (p + 1) errText)] := by
  have hsplit := range_split p (min master.pageCount sample.pageCount) hpn
  have hfail := comparePagesList_fail env (min master.pageCount sample.pageCount) p errText hp
    (List.range' (p + 1) (min master.pageCount sample.pageCount - (p + 1)))
    (List.range p) initAcc (fun q hqm => hq q (List.mem_range.1 hqm))
  rw [← hsplit] at hfail
  rw [show List.range p ++ [p] = List.range (p + 1) from (List.range_succ p).symm] at hfail
  have hrun := run_loopFail env job master sample hm hs he _ _ hfail
  have hrec : runRecord env job =
      errWrite (sampleWrite (masterWrite (entryWrite job) master) sample)
        (pageFailMsg (p + 1) errText) := by
    simp [runRecord, hrun]
  rw [hrec]
  refine ⟨rfl, rfl, rfl, rfl, rfl, rfl, ?_⟩
  rw [hrun]

/-- A two-page environment whose engine fails on the second page. -/
def wEnvFail : Env where
  masterConv := .ok wMaster
  sampleConv := .ok wSample
  engineOk := true
  engine := fun q => if q = 0 then .ok wRes0 else .error "timeout"
  apiKeyPresent := false
  enhancer := .ok none

/-- Witness for C3: second page fails with message "timeout". -/
theorem page_failure_aborts_job_witness :
    (∀ q, q < 1 → isOkB (wEnvFail.engine q) = true)
    ∧ wEnvFail.engine 1 = .error "timeout"
    ∧ (1 < min wMaster.pageCount wSample.pageCount)
    ∧ ((runRecord wEnvFail wJob).status = .error
       ∧ (runRecord wEnvFail wJob).errorMessage = pageFailMsg (1 + 1) "timeout"
       ∧ (runRecord wEnvFail wJob).findings = wJob.findings
       ∧ (runRecord wEnvFail wJob).diffImages = wJob.diffImages
       ∧ (runRecord wEnvFail wJob).heatmaps = wJob.heatmaps
       ∧ (runRecord wEnvFail wJob).analysis = wJob.analysis
       ∧ (runFullInspection wEnvFail wJob).2 =
           [stage1Ev, stage2Ev, stage3Ev]
             ++ (List.range (1 + 1)).map (pageEv (min wMaster.pageCount wSample.pageCount))
             ++ [Event.error (pageFailMsg (1 + 1) "timeout")]) :=
  ⟨by decide, rfl, by decide,
   page_failure_aborts_job wEnvFail wJob wMaster wSample 1 "timeout" rfl rfl rfl
     (by decide) rfl (by decide)⟩

/-! ## C2 — start is idempotent; status transitions -/

theorem stepOk_refl (a : Status) : stepOk a a := Or.inl rfl
theorem stepOk_pending_processing : stepOk .pending .processing := Or.inr (Or.inl ⟨rfl, rfl⟩)
theorem stepOk_error_processing : stepOk .error .processing := Or.inr (Or.inr (Or.inl ⟨rfl, rfl⟩))
theorem stepOk_processing_inspected : stepOk .processing .inspected :=
  Or.inr (Or.inr (Or.inr ⟨rfl, Or.inl rfl⟩))
theorem stepOk_processing_error : stepOk .processing .error :=
  Or.inr (Or.inr (Or.inr ⟨rfl, Or.inr rfl⟩))

/-- `applySpelling` never touches `status`. -/
theorem applySpelling_status (ps : StartParams) (j : Job) :
    (applySpelling ps j).status = j.status := by
  simp only [applySpelling]
  cases ps.checkSpelling <;> cases ps.spellingLanguage <;> cases ps.spellingLevel <;> rfl

/-- The route's pre-spawn writes never touch `status`. -/
theorem paramWrites_status (ps : StartParams) (j : Job) :
    (∀ w ∈ (paramWrites ps j).1, w.status = j.status)
    ∧ (paramWrites ps j).2.status = j.status := by
  unfold paramWrites
  cases hz : ps.inspectionZones with
  | none =>
    by_cases h : hasSpellingUpdate ps = true
    · simp only [h, if_true]
      exact ⟨by intro w hw; simp at hw; subst hw; exact applySpelling_status ps j,
             applySpelling_status ps j⟩
    · simp only [h, if_false]
      exact ⟨by intro w hw; simp at hw, rfl⟩
  | some zs =>
    by_cases h : hasSpellingUpdate ps = true
    · simp only [h, if_true]
      refine ⟨?_, applySpelling_status ps _⟩
      intro w hw
      simp only [List.cons_append, List.nil_append, List.mem_cons, List.not_mem_nil,
        or_false] at hw
      rcases hw with rfl | rfl
      · rfl
      · exact applySpelling_status ps _
    · simp only [h, if_false]
      refine ⟨?_, rfl⟩
      intro w hw
      simp at hw
      subst hw
      rfl

/-- The first persisted write of every pipeline run is the `processing` entry
write with `errorMessage` cleared. -/
theorem run_writes_head (env : Env) (j : Job) :
    ((runFullInspection env j).1).head? = some (entryWrite j) := by
  cases hm : env.masterConv with
  | error e => rw [run_masterFail env j e hm]; rfl
  | ok master =>
    cases hs : env.sampleConv with
    | error e => rw [run_sampleFail env j master e hm hs]; rfl
    | ok sample =>
      cases he : env.engineOk with
      | false => rw [run_engineDown env j master sample hm hs he]; rfl
      | true =>
        rcases hloop : comparePagesList env (min master.pageCount sample.pageCount)
            (List.range (min master.pageCount sample.pageCount)) initAcc with ⟨evs, r⟩
        cases r with
        | error msg => rw [run_loopFail env j master sample hm hs he evs msg hloop]; rfl
        | ok acc => rw [run_loopOk env j master sample hm hs he evs acc hloop]; rfl

/-- The statuses persisted along any run, prepended with the prior status of
a job allowed to start, form a chain of allowed transitions. -/
theorem run_status_chain (env : Env) (j : Job) (s0 : Status)
    (h : s0 = .pending ∨ s0 = .error) :
    List.Chain' stepOk (s0 :: ((runFullInspection env j).1).map Job.status) := by
  have hs : stepOk s0 .processing := by
    rcases h with h | h <;> subst h
    · exact stepOk_pending_processing
    · exact stepOk_error_processing
  cases hm : env.masterConv with
  | error e =>
    rw [run_masterFail env j e hm]
    simp only [List.map_cons, List.map_nil, entryWrite_status, errWrite_status,
      List.chain'_cons, List.chain'_singleton]
    exact ⟨hs, stepOk_processing_error, trivial⟩
  | ok master =>
    cases hs2 : env.sampleConv with
    | error e =>
      rw [run_sampleFail env j master e hm hs2]
      simp only [List.map_cons, List.map_nil, entryWrite_status, masterWrite_status,
        errWrite_status, List.chain'_cons, List.chain'_singleton]
      exact ⟨hs, stepOk_refl _, stepOk_processing_error, trivial⟩
    | ok sample =>
      cases he : env.engineOk with
      | false =>
        rw [run_engineDown env j master sample hm hs2 he]
        simp only [List.map_cons, List.map_nil, entryWrite_status, masterWrite_status,
          sampleWrite_status, errWrite_status, List.chain'_cons, List.chain'_singleton]
        exact ⟨hs, stepOk_refl _, stepOk_refl _, stepOk_processing_error, trivial⟩
      | true =>
        rcases hloop : comparePagesList env (min master.pageCount sample.pageCount)
            (List.range (min master.pageCount sample.pageCount)) initAcc with ⟨evs, r⟩
        cases r with
        | error msg =>
          rw [run_loopFail env j master sample hm hs2 he evs msg hloop]
          simp only [List.map_cons, List.map_nil, entryWrite_status, masterWrite_status,
            sampleWrite_status, errWrite_status, List.chain'_cons, List.chain'_singleton]
          exact ⟨hs, stepOk_refl _, stepOk_refl _, stepOk_processing_error, trivial⟩
        | ok acc =>
          rw [run_loopOk env j master sample hm hs2 he evs acc hloop]
          simp only [List.map_cons, List.map_nil, entryWrite_status, masterWrite_status,
            sampleWrite_status, finalizeWrite_status, List.chain'_cons, List.chain'_singleton]
          exact ⟨hs, stepOk_refl _, stepOk_refl _, stepOk_processing_inspected, trivial⟩

/-- Prepending writes that do not change the status preserves a chain. -/
theorem chain_const_front {α : Type} {R : α → α → Prop} (hrefl : ∀ a, R a a)
    (s0 : α) (l1 l2 : List α) (h1 : ∀ x ∈ l1, x = s0)
    (h2 : List.Chain' R (s0 :: l2)) :
    List.Chain' R (s0 :: l1 ++ l2) := by
  induction l1 with
  | nil => simpa using h2
  | cons x xs ih =>
    have hx := h1 x (by simp)
    subst hx
    rw [List.cons_append]
    exact List.chain'_cons.2 ⟨hrefl x, ih (fun y hy => h1 y (by simp [hy]))⟩

/-- C2: starting a job that is `inspected` or `processing` is a no-op (no
write, no spawned run, no stage-1 event); starting a job in `error` spawns
the pipeline again, whose first write re-enters `processing` with
`errorMessage` cleared; and every status ever persisted by a start request
follows the pending→processing→{inspected, error} machine (with
error→processing re-entry). -/
theorem start_idempotent_and_status_transitions (env : Env) (ps : StartParams) (job : Job) :
    (job.status = .inspected →
       startInspection env ps job = ⟨.alreadyInspected, false, [], []⟩)
    ∧ (job.status = .processing →
       startInspection env ps job = ⟨.inProgress, false, [], []⟩)
    ∧ (job.status = .error →
         (startInspection env ps job).spawned = true
       ∧ (startInspection env ps job).events = (runFullInspection env (paramWrites ps job).2).2
       ∧ ((runFullInspection env (paramWrites ps job).2).1).head?
           = some (entryWrite (paramWrites ps job).2))
    ∧ List.Chain' stepOk (job.status :: (startInspection env ps job).writes.map Job.status) := by
  refine ⟨?_, ?_, ?_, ?_⟩
  · intro h; simp only [startInspection, h]
  · intro h; simp only [startInspection, h]
  · intro h
    exact ⟨by simp only [startInspection, h], by simp only [startInspection, h],
           run_writes_head env (paramWrites ps job).2⟩
  · cases hst : job.status with
    | inspected => simp only [startInspection, hst]; exact List.chain'_singleton _
    | processing => simp only [startInspection, hst]; exact List.chain'_singleton _
    | pending =>
      have hpw := paramWrites_status ps job
      simp only [startInspection, hst, List.map_append]
      apply chain_const_front stepOk_refl
      · intro x hx
        obtain ⟨w, hw, rfl⟩ := List.mem_map.1 hx
        rw [hpw.1 w hw]; exact hst
      · have hr := run_status_chain env (paramWrites ps job).2 .pending (Or.inl rfl)
        exact hr
    | error =>
      have hpw := paramWrites_status ps job
      simp only [startInspection, hst, List.map_append]
      apply chain_const_front stepOk_refl
      · intro x hx
        obtain ⟨w, hw, rfl⟩ := List.mem_map.1 hx
        rw [hpw.1 w hw]; exact hst
      · exact run_status_chain env (paramWrites ps job).2 .error (Or.inr rfl)

def wParams : StartParams := ⟨none, none, none, none⟩

def wJobInspected : Job := { wJob with status := .inspected }

/-- Witness for C2: a concrete `inspected` job is untouched by start. -/
theorem start_idempotent_and_status_transitions_witness :
    wJobInspected.status = .inspected
    ∧ startInspection wEnv wParams wJobInspected = ⟨.alreadyInspected, false, [], []⟩ :=
  ⟨rfl, (start_idempotent_and_status_transitions wEnv wParams wJobInspected).1 rfl⟩

/-! ## C7 — monotone percents and linear interpolation -/

theorem jsRound_mono {a b : ℚ} (h : a ≤ b) : jsRound a ≤ jsRound b :=
  Int.floor_le_floor (by linarith)

theorem jsRound_zero : jsRound 0 = 0 := by norm_num [jsRound]

theorem maxOneCast_pos (n : ℕ) : (0 : ℚ) < ((max 1 n : ℕ) : ℚ) := by
  have h : (1 : ℕ) ≤ max 1 n := le_max_left 1 n
  exact_mod_cast lt_of_lt_of_le Nat.zero_lt_one (by exact_mod_cast h)

theorem pagePct_mono (n : ℕ) {p q : ℕ} (h : p ≤ q) : pagePct p n ≤ pagePct q n := by
  unfold pagePct
  have hd : (0 : ℚ) ≤ ((max 1 n : ℕ) : ℚ) := le_of_lt (maxOneCast_pos n)
  apply add_le_add_left
  apply jsRound_mono
  have hpq : (p : ℚ) ≤ (q : ℚ) := by exact_mod_cast h
  have := div_le_div_of_nonneg_right hpq hd
  ·
    calc (p : ℚ) / _ * 35 ≤ (q : ℚ) / _ * 35 := by
          exact mul_le_mul_of_nonneg_right this (by norm_num)
      _ = _ := rfl

theorem pagePct_lb (p n : ℕ) : 25 ≤ pagePct p n := by
  unfold pagePct
  have h0 : (0 : ℚ) ≤ (p : ℚ) / ((max 1 n : ℕ) : ℚ) * 35 := by positivity
  have h1 := jsRound_mono h0
  rw [jsRound_zero] at h1
  omega

theorem pagePct_zero (n : ℕ) : pagePct 0 n = 25 := by
  unfold pagePct
  rw [Nat.cast_zero, zero_div, zero_mul, jsRound_zero]
  omega

theorem pagePct_ub (p n : ℕ) (h : p ≤ n) : pagePct p n ≤ 60 := by
  unfold pagePct
  have hd := maxOneCast_pos n
  have hx : (p : ℚ) / ((max 1 n : ℕ) : ℚ) * 35 ≤ 35 := by
    have h1 : (p : ℚ) / ((max 1 n : ℕ) : ℚ) ≤ 1 := by
      rw [div_le_one hd]
      exact_mod_cast le_trans h (le_max_right 1 n)
    calc (p : ℚ) / ((max 1 n : ℕ) : ℚ) * 35 ≤ 1 * 35 :=
          mul_le_mul_of_nonneg_right h1 (by norm_num)
      _ = 35 := one_mul 35
  have h2 := jsRound_mono hx
  have h35 : jsRound 35 = 35 := by norm_num [jsRound]
  rw [h35] at h2
  omega

/-- The per-page percent is the rounded linear interpolation from 25 (page
index 0) to 60 (page index `n`). -/
theorem pagePct_eq_lerp (p n : ℕ) (h : p < n) :
    pagePct p n = jsRound (lerp 25 60 ((p : ℚ) / ((n : ℕ) : ℚ))) := by
  have hn : max 1 n = n := Nat.max_eq_right (by omega)
  unfold pagePct lerp jsRound
  rw [hn]
  have heq : (25 : ℚ) + (60 - 25) * ((p : ℚ) / ((n : ℕ) : ℚ)) + 1 / 2
      = ((25 : ℤ) : ℚ) + ((p : ℚ) / ((n : ℕ) : ℚ) * 35 + 1 / 2) := by
    push_cast
    ring
  rw [heq, Int.floor_int_add]

theorem progressPercents_append (a b : List Event) :
    progressPercents (a ++ b) = progressPercents a ++ progressPercents b :=
  List.filterMap_append a b _

theorem progressPercents_pageEvs (n : ℕ) (ps : List ℕ) :
    progressPercents (ps.map (pageEv n)) = ps.map fun p => pagePct p n := by
  induction ps with
  | nil => rfl
  | cons p ps ih =>
    rw [List.map_cons, List.map_cons, ← ih]
    show List.filterMap _ (pageEv n p :: _) = _
    rw [List.filterMap_cons]
    rfl

theorem chain_pagePcts (n k : ℕ) :
    List.Chain' (· ≤ ·) ((List.range k).map fun p => pagePct p n) := by
  rw [List.chain'_map, List.chain'_iff_get]
  intro i hi
  simp only [List.get_eq_getElem, List.getElem_range]
  exact pagePct_mono n (Nat.le_succ i)

/-- The percent chain of a run that reaches stage 3 and compares `k ≤ n`
pages, possibly followed by the stage 4/5 percents. -/
theorem chain_full (n k : ℕ) (hk : k ≤ n) (tail : List ℤ)
    (htail : tail = [] ∨ tail = [65, 85, 100]) :
    List.Chain' (· ≤ ·)
      ((5 : ℤ) :: (15 : ℤ) :: (25 : ℤ)
        :: (((List.range k).map fun p => pagePct p n) ++ tail)) := by
  have htailc : List.Chain' (α := ℤ) (· ≤ ·) tail := by
    rcases htail with rfl | rfl
    · exact List.chain'_nil
    · simp only [List.chain'_cons, List.chain'_singleton]
      norm_num
  have hmain : List.Chain' (· ≤ ·)
      ((25 : ℤ) :: (((List.range k).map fun p => pagePct p n) ++ tail)) := by
    cases k with
    | zero =>
      simp only [List.range_zero, List.map_nil, List.nil_append]
      rw [List.chain'_cons']
      refine ⟨?_, htailc⟩
      intro y hy
      rcases htail with rfl | rfl
      · simp at hy
      · simp at hy; subst hy; norm_num
    | succ m =>
      have hchain : List.Chain' (· ≤ ·)
          (((25 : ℤ) :: ((List.range (m + 1)).map fun p => pagePct p n)) ++ tail) := by
        rw [List.chain'_append]
        refine ⟨?_, htailc, ?_⟩
        · rw [List.chain'_cons']
          refine ⟨?_, chain_pagePcts n (m + 1)⟩
          intro y hy
          rw [List.head?_map, List.head?_range] at hy
          simp at hy
          subst hy
          rw [pagePct_zero]
        · intro x hx y hy
          have hlast : ((25 : ℤ) :: ((List.range (m + 1)).map fun p => pagePct p n)).getLast?
              = some (pagePct m n) := by
            rw [show ((25 : ℤ) :: ((List.range (m + 1)).map fun p => pagePct p n))
                  = [(25 : ℤ)] ++ ((List.range (m + 1)).map fun p => pagePct p n) from rfl,
              List.getLast?_append, List.getLast?_map, List.range_succ,
              List.getLast?_append]
            rfl
          rw [hlast] at hx
          simp at hx
          subst hx
          rcases htail with rfl | rfl
          · simp at hy
          · simp at hy
            subst hy
            have := pagePct_ub m n (by omega)
            omega
      simpa using hchain
  simp only [List.chain'_cons]
  exact ⟨by norm_num, by norm_num, hmain⟩

/-- C7: within a single run the percent values of the emitted progress events
are monotonically non-decreasing in emission order, and on a successful run
each compared page's progress event carries the rounded linear interpolation
from 25 to 60 at `p / n`. -/
theorem progress_percent_monotone_linear (env : Env) (job : Job) :
    List.Chain' (· ≤ ·) (progressPercents (runFullInspection env job).2)
    ∧ (∀ (master sample : ConvResult), env.masterConv = .ok master →
        env.sampleConv = .ok sample → env.engineOk = true →
        (∀ q, q < min master.pageCount sample.pageCount → isOkB (env.engine q) = true) →
        ∀ p, p < min master.pageCount sample.pageCount →
          Event.progress 3 (pageMsg p (min master.pageCount sample.pageCount))
              (jsRound (lerp 25 60
                ((p : ℚ) / (((min master.pageCount sample.pageCount : ℕ)) : ℚ))))
            ∈ (runFullInspection env job).2) := by
  constructor
  · cases hm : env.masterConv with
    | error e =>
      rw [run_masterFail env job e hm]
      show List.Chain' (· ≤ ·) [(5 : ℤ)]
      exact List.chain'_singleton _
    | ok master =>
      cases hs : env.sampleConv with
      | error e =>
        rw [run_sampleFail env job master e hm hs]
        show List.Chain' (· ≤ ·) [(5 : ℤ), 15]
        simp only [List.chain'_cons, List.chain'_singleton]
        norm_num
      | ok sample =>
        cases he : env.engineOk with
        | false =>
          rw [run_engineDown env job master sample hm hs he]
          show List.Chain' (· ≤ ·) [(5 : ℤ), 15]
          simp only [List.chain'_cons, List.chain'_singleton]
          norm_num
        | true =>
          rcases hloop : comparePagesList env (min master.pageCount sample.pageCount)
              (List.range (min master.pageCount sample.pageCount)) initAcc with ⟨evs, r⟩
          have hevs : evs = (comparePagesList env (min master.pageCount sample.pageCount)
              (List.range (min master.pageCount sample.pageCount)) initAcc).1 := by
            rw [hloop]
          obtain ⟨k, hk⟩ := comparePagesList_events env (min master.pageCount sample.pageCount)
            (List.range (min master.pageCount sample.pageCount)) initAcc
          rw [hk, List.take_range] at hevs
          cases r with
          | error msg =>
            rw [run_loopFail env job master sample hm hs he evs msg hloop, hevs]
            rw [progressPercents_append, progressPercents_append, progressPercents_pageEvs]
            have := chain_full (min master.pageCount sample.pageCount)
              (min k (min master.pageCount sample.pageCount)) (min_le_right _ _) [] (Or.inl rfl)
            simpa [progressPercents, List.filterMap_cons, stage1Ev, stage2Ev, stage3Ev]
              using this
          | ok acc =>
            rw [run_loopOk env job master sample hm hs he evs acc hloop, hevs]
            rw [progressPercents_append, progressPercents_append, progressPercents_pageEvs]
            have := chain_full (min master.pageCount sample.pageCount)
              (min k (min master.pageCount sample.pageCount)) (min_le_right _ _)
              [65, 85, 100] (Or.inr rfl)
            simpa [progressPercents, List.filterMap_cons, stage1Ev, stage2Ev, stage3Ev,
              stage4Ev, stage5Ev, stageDoneEv] using this
  · intro master sample hm hs he hEng p hp
    rw [run_success env job master sample hm hs he hEng]
    rw [← pagePct_eq_lerp p (min master.pageCount sample.pageCount) hp]
    have hmem : pageEv (min master.pageCount sample.pageCount) p
        ∈ (List.range (min master.pageCount sample.pageCount)).map
            (pageEv (min master.pageCount sample.pageCount)) :=
      List.mem_map.2 ⟨p, List.mem_range.2 hp, rfl⟩
    exact List.mem_append.2 (Or.inl (List.mem_append.2 (Or.inr hmem)))

/-- Witness for C7 at the concrete two-page environment. -/
theorem progress_percent_monotone_linear_witness :
    List.Chain' (· ≤ ·) (progressPercents (runFullInspection wEnv wJob).2)
    ∧ Event.progress 3 (pageMsg 0 (min wMaster.pageCount wSample.pageCount))
        (jsRound (lerp 25 60
          ((0 : ℚ) / (((min wMaster.pageCount wSample.pageCount : ℕ)) : ℚ))))
      ∈ (runFullInspection wEnv wJob).2 :=
  ⟨(progress_percent_monotone_linear wEnv wJob).1,
   (progress_percent_monotone_linear wEnv wJob).2 wMaster wSample rfl rfl rfl
     (by decide) 0 (by decide)⟩

/-! ## C5 — enhancement guard, positional application, never fatal -/

theorem applyEnhancementList_length :
    ∀ (fs : List Finding) (es : List EnhItem),
      (applyEnhancementList fs es).length = fs.length := by
  intro fs
  induction fs with
  | nil => intro es; cases es <;> rfl
  | cons f fs ih =>
    intro es
    cases es with
    | nil => rfl
    | cons e es => simp [applyEnhancementList, ih]

theorem applyEnhancementList_getElem? (fs : List Finding) :
    ∀ (es : List EnhItem) (i : ℕ),
      (applyEnhancementList fs es)[i]? =
        match fs[i]?, es[i]? with
        | some f, some e => some (applyEnh1 f e)
        | some f, none => some f
        | none, _ => none := by
  induction fs with
  | nil => intro es i; cases es <;> simp [applyEnhancementList]
  | cons f fs ih =>
    intro es i
    cases es with
    | nil =>
      show (f :: fs)[i]? = _
      cases h : (f :: fs)[i]? <;> simp [h]
    | cons e es =>
      cases i with
      | zero => simp [applyEnhancementList]
      | succ j =>
        simp only [applyEnhancementList, List.getElem?_cons_succ]
        exact ih es j

/-- Field-level description of one positional overwrite. -/
theorem applyEnh1_fields (f : Finding) (e : EnhItem) :
    (applyEnh1 f e).description
        = (match e.description with
           | some d => if d = "" then f.description else d
           | none => f.description)
    ∧ (applyEnh1 f e).severity_suggestion
        = (match e.severity_suggestion with
           | some s => some s
           | none => f.severity_suggestion)
    ∧ (applyEnh1 f e).color
        = (match e.severity_suggestion with
           | some s => severityToColor (some s)
           | none => f.color)
    ∧ (applyEnh1 f e).page = f.page
    ∧ (applyEnh1 f e).type = f.type
    ∧ (applyEnh1 f e).severity = f.severity
    ∧ (applyEnh1 f e).bbox = f.bbox
    ∧ (applyEnh1 f e).comment = f.comment
    ∧ (applyEnh1 f e).status = f.status
    ∧ (applyEnh1 f e).pixel_diff_percent = f.pixel_diff_percent
    ∧ (applyEnh1 f e).color_delta_e = f.color_delta_e
    ∧ (applyEnh1 f e).master_crop = f.master_crop
    ∧ (applyEnh1 f e).sample_crop = f.sample_crop := by
  cases hd : e.description with
  | none => cases hs : e.severity_suggestion <;> simp [applyEnh1, hd, hs]
  | some d =>
    by_cases hdd : d = "" <;> cases hs : e.severity_suggestion <;>
      simp [applyEnh1, hd, hs, hdd]

/-- C5: the enhancement stage runs only when an API key is configured, the
finding list is non-empty and has at most 25 entries; an enhancer exception
or a null/malformed result leaves the findings unchanged; on success the
items are applied positionally in order (description overwritten when a
non-empty one is provided, suggestion and derived color when one is
provided, everything else untouched, tail beyond the returned items
untouched); and the job still completes regardless of the enhancer. -/
theorem enhancement_guard_positional_nonfatal (env : Env) (fs : List Finding) :
    (¬ (env.apiKeyPresent = true ∧ 0 < fs.length ∧ fs.length ≤ 25) →
       enhanceStage env fs = fs)
    ∧ (∀ emsg, env.enhancer = .error emsg → enhanceStage env fs = fs)
    ∧ (env.enhancer = .ok none → enhanceStage env fs = fs)
    ∧ (∀ es, env.enhancer = .ok (some es) →
        env.apiKeyPresent = true → 0 < fs.length → fs.length ≤ 25 →
          enhanceStage env fs = applyEnhancementList fs es
        ∧ (applyEnhancementList fs es).length = fs.length
        ∧ (∀ (i : ℕ) (f : Finding), fs[i]? = some f → es[i]? = none →
            (applyEnhancementList fs es)[i]? = some f)
        ∧ (∀ (i : ℕ) (f : Finding) (e : EnhItem), fs[i]? = some f → es[i]? = some e →
            (applyEnhancementList fs es)[i]? = some (applyEnh1 f e)
            ∧ (applyEnh1 f e).description
                = (match e.description with
                   | some d => if d = "" then f.description else d
                   | none => f.description)
            ∧ (applyEnh1 f e).severity_suggestion
                = (match e.severity_suggestion with
                   | some s => some s
                   | none => f.severity_suggestion)
            ∧ (applyEnh1 f e).color
                = (match e.severity_suggestion with
                   | some s => severityToColor (some s)
                   | none => f.color)
            ∧ (applyEnh1 f e).page = f.page
            ∧ (applyEnh1 f e).type = f.type
            ∧ (applyEnh1 f e).severity = f.severity
            ∧ (applyEnh1 f e).bbox = f.bbox
            ∧ (applyEnh1 f e).comment = f.comment
            ∧ (applyEnh1 f e).status = f.status))
    ∧ (∀ (job : Job) (master sample : ConvResult),
        env.masterConv = .ok master → env.sampleConv = .ok sample →
        env.engineOk = true →
        (∀ q, q < min master.pageCount sample.pageCount → isOkB (env.engine q) = true) →
        (runRecord env job).status = .inspected) := by
  refine ⟨?_, ?_, ?_, ?_, ?_⟩
  · intro h
    unfold enhanceStage
    rw [if_neg h]
  · intro emsg h
    unfold enhanceStage
    by_cases hc : env.apiKeyPresent = true ∧ 0 < fs.length ∧ fs.length ≤ 25
    · rw [if_pos hc, h]
    · rw [if_neg hc]
  · intro h
    unfold enhanceStage
    by_cases hc : env.apiKeyPresent = true ∧ 0 < fs.length ∧ fs.length ≤ 25
    · rw [if_pos hc, h]
    · rw [if_neg hc]
  · intro es h hk h0 h25
    refine ⟨?_, applyEnhancementList_length fs es, ?_, ?_⟩
    · unfold enhanceStage
      rw [if_pos ⟨hk, h0, h25⟩, h]
    · intro i f hf he
      rw [applyEnhancementList_getElem? fs es i, hf, he]
    · intro i f e hf he
      refine ⟨?_, applyEnh1_fields f e |>.1, (applyEnh1_fields f e).2.1,
        (applyEnh1_fields f e).2.2.1, (applyEnh1_fields f e).2.2.2.1,
        (applyEnh1_fields f e).2.2.2.2.1, (applyEnh1_fields f e).2.2.2.2.2.1,
        (applyEnh1_fields f e).2.2.2.2.2.2.1, (applyEnh1_fields f e).2.2.2.2.2.2.2.1,
        (applyEnh1_fields f e).2.2.2.2.2.2.2.2.1⟩
      rw [applyEnhancementList_getElem? fs es i, hf, he]
  · intro job master sample hm hs he hEng
    rw [runRecord_success env job master sample hm hs he hEng]
    rfl

def wEnhItem : EnhItem := ⟨some "texto ajustado", some .minor⟩

def wFinding : Finding := mkFinding 1 wDiff

/-- A configured-enhancer environment. -/
def wEnvEnh : Env :=
  { wEnv with apiKeyPresent := true, enhancer := .ok (some [wEnhItem]) }

/-- Witness for C5: the guard holds concretely and one item is applied. -/
theorem enhancement_guard_positional_nonfatal_witness :
    wEnvEnh.enhancer = .ok (some [wEnhItem])
    ∧ wEnvEnh.apiKeyPresent = true
    ∧ 0 < ([wFinding] : List Finding).length
    ∧ ([wFinding] : List Finding).length ≤ 25
    ∧ enhanceStage wEnvEnh [wFinding] = applyEnhancementList [wFinding] [wEnhItem] :=
  ⟨rfl, rfl, by simp, by simp,
   ((enhancement_guard_positional_nonfatal wEnvEnh [wFinding]).2.2.2.1 [wEnhItem]
      rfl rfl (by simp) (by simp)).1⟩

/-! ## C6 — derived color -/

theorem severityToColor_eq_derived (x : Option Sev3) :
    severityToColor x = derivedColorSpec none x := by
  cases x with
  | none => rfl
  | some s => cases s <;> rfl

theorem classifyColor_eq_derived (sv : Sev4) (sug : Option Sev3) :
    classifyColor sv = derivedColorSpec (some sv) sug := by
  cases sv <;> rfl

theorem mkFinding_inv (page : ℕ) (d : EngineDiff) :
    (mkFinding page d).severity = none
    ∧ (mkFinding page d).color = derivedColorSpec none d.severity_suggestion :=
  ⟨rfl, severityToColor_eq_derived d.severity_suggestion⟩

/-- The base⇒goal form of the color invariant. -/
theorem inv_of_base (f : Finding)
    (h : f.severity = none ∧ f.color = derivedColorSpec none f.severity_suggestion) :
    f.severity = none ∧ f.color = derivedColorSpec f.severity f.severity_suggestion :=
  ⟨h.1, by rw [h.1]; exact h.2⟩

theorem applyEnh1_inv (f : Finding) (e : EnhItem)
    (hsev : f.severity = none)
    (hcol : f.color = derivedColorSpec none f.severity_suggestion) :
    (applyEnh1 f e).severity = none
    ∧ (applyEnh1 f e).color = derivedColorSpec none (applyEnh1 f e).severity_suggestion := by
  obtain ⟨-, hs, hc, -, -, hsev', -⟩ := applyEnh1_fields f e
  refine ⟨by rw [hsev', hsev], ?_⟩
  rw [hs, hc]
  cases e.severity_suggestion with
  | none => exact hcol
  | some s => exact severityToColor_eq_derived (some s)

theorem applyEnhancementList_inv :
    ∀ (fs : List Finding) (es : List EnhItem),
      (∀ g ∈ fs, g.severity = none ∧ g.color = derivedColorSpec none g.severity_suggestion) →
      ∀ f ∈ applyEnhancementList fs es,
        f.severity = none ∧ f.color = derivedColorSpec none f.severity_suggestion := by
  intro fs
  induction fs with
  | nil => intro es h f hf; cases es <;> simp [applyEnhancementList] at hf
  | cons g fs ih =>
    intro es h f hf
    cases es with
    | nil => exact h f hf
    | cons e es =>
      rcases List.mem_cons.1 hf with rfl | hf
      · exact applyEnh1_inv g e (h g (by simp)).1 (h g (by simp)).2
      · exact ih es (fun x hx => h x (by simp [hx])) f hf

theorem enhanceStage_inv (env : Env) (fs : List Finding)
    (h : ∀ g ∈ fs, g.severity = none ∧ g.color = derivedColorSpec none g.severity_suggestion) :
    ∀ f ∈ enhanceStage env fs,
      f.severity = none ∧ f.color = derivedColorSpec none f.severity_suggestion := by
  intro f hf
  unfold enhanceStage at hf
  by_cases hc : env.apiKeyPresent = true ∧ 0 < fs.length ∧ fs.length ≤ 25
  · rw [if_pos hc] at hf
    cases henh : env.enhancer with
    | error e => rw [henh] at hf; exact h f hf
    | ok o =>
      cases o with
      | none => rw [henh] at hf; exact h f hf
      | some es => rw [henh] at hf; exact applyEnhancementList_inv fs es h f hf
  · rw [if_neg hc] at hf
    exact h f hf

theorem successAcc_findings_inv (env : Env) (n : ℕ) :
    ∀ f ∈ (successAcc env n).findings,
      f.severity = none ∧ f.color = derivedColorSpec none f.severity_suggestion := by
  intro f hf
  simp only [successAcc, List.mem_flatten, List.mem_map] at hf
  obtain ⟨l, ⟨q, hq, rfl⟩, hfl⟩ := hf
  simp only [pageFindings, List.mem_map] at hfl
  obtain ⟨d, hd, rfl⟩ := hfl
  exact mkFinding_inv (q + 1) d

/-- C6 (amended): the derived color follows the pure severity mapping
(falling back to `severity_suggestion`: critical→red, important→yellow,
minor→blue, ignore→green, unclassified→yellow) for every finding a completed
pipeline persists, and for the classification action whenever it assigns a
non-null severity; classification that sets severity to null leaves the
stored color unchanged instead of recomputing it from the suggestion. -/
theorem derived_color_pipeline_and_classify :
    (∀ (env : Env) (job : Job) (master sample : ConvResult),
        env.masterConv = .ok master → env.sampleConv = .ok sample →
        env.engineOk = true →
        (∀ q, q < min master.pageCount sample.pageCount → isOkB (env.engine q) = true) →
        ∀ f ∈ (runRecord env job).findings,
          f.color = derivedColorSpec f.severity f.severity_suggestion)
    ∧ (∀ (f : Finding) (p : ClassifyParams) (sv : Sev4), p.severity = some (some sv) →
        (applyClassify p f).severity = some sv
        ∧ (applyClassify p f).color = derivedColorSpec (some sv) f.severity_suggestion)
    ∧ (∀ (f : Finding) (p : ClassifyParams), p.severity = some none →
        (applyClassify p f).severity = none ∧ (applyClassify p f).color = f.color) := by
  refine ⟨?_, ?_, ?_⟩
  · intro env job master sample hm hs he hEng f hf
    rw [runRecord_success env job master sample hm hs he hEng] at hf
    have hf' : f ∈ enhanceStage env
        (successAcc env (min master.pageCount sample.pageCount)).findings := hf
    have := enhanceStage_inv env _
      (successAcc_findings_inv env (min master.pageCount sample.pageCount)) f hf'
    exact (inv_of_base f this).2
  · intro f p sv hp
    unfold applyClassify
    rw [hp]
    cases hc : p.comment <;>
      exact ⟨rfl, classifyColor_eq_derived sv f.severity_suggestion⟩
  · intro f p hp
    unfold applyClassify
    rw [hp]
    cases hc : p.comment <;> exact ⟨rfl, rfl⟩

/-- A finding as the pipeline leaves it after the user classified it
`critical` (color red) while the engine had suggested `minor`. -/
def cexFinding6 : Finding where
  page := 1
  type := "color"
  severity := some .critical
  severity_suggestion := some .minor
  description := "d"
  bbox := ⟨0, 0, 1, 1⟩
  color := .red
  pixel_diff_percent := 0
  color_delta_e := 0
  master_crop := ""
  sample_crop := ""
  comment := ""
  status := .classified

def cexJob6 : Job := { wJob with status := .inspected, findings := [cexFinding6] }

/-- The finding after the classification action sets its severity back to
null (unclassified). -/
def classifyNullResult6 : Finding :=
  ((classifyFinding cexJob6 0 ⟨some none, none⟩).getD cexJob6).findings.getD 0 cexFinding6

/-- Counterexample to C6 as stated: classifying a finding back to null leaves
its color `red` although the claimed pure derivation (severity unset, falling
back to the `minor` suggestion) gives `blue`. -/
theorem classify_null_color_cex :
    classifyNullResult6.severity = none
    ∧ classifyNullResult6.severity_suggestion = some .minor
    ∧ classifyNullResult6.color = .red
    ∧ classifyNullResult6.color
        ≠ derivedColorSpec classifyNullResult6.severity
            classifyNullResult6.severity_suggestion := by
  decide

/-- Witness for C6 (amended): classifying to `ignore` recomputes the color to
green, matching the derivation. -/
theorem derived_color_pipeline_and_classify_witness :
    (⟨some (some Sev4.ignore), none⟩ : ClassifyParams).severity = some (some Sev4.ignore)
    ∧ ((applyClassify ⟨some (some Sev4.ignore), none⟩ cexFinding6).severity
        = some Sev4.ignore
       ∧ (applyClassify ⟨some (some Sev4.ignore), none⟩ cexFinding6).color
           = derivedColorSpec (some Sev4.ignore) cexFinding6.severity_suggestion) :=
  ⟨rfl, derived_color_pipeline_and_classify.2.1 cexFinding6
    ⟨some (some Sev4.ignore), none⟩ Sev4.ignore rfl⟩

/-! ## C9 — the classification action's frame -/

/-- Field-level description of the classification patch. -/
theorem applyClassify_fields (p : ClassifyParams) (f : Finding) :
    (∀ sv : Sev4, p.severity = some (some sv) →
      (applyClassify p f).color = classifyColor sv ∧ (applyClassify p f).severity = some sv)
    ∧ ((p.severity = some none ∨ p.severity = none) → (applyClassify p f).color = f.color)
    ∧ (p.severity = some none → (applyClassify p f).severity = none)
    ∧ (p.severity = none → (applyClassify p f).severity = f.severity)
    ∧ (applyClassify p f).severity_suggestion = f.severity_suggestion
    ∧ (applyClassify p f).page = f.page
    ∧ (applyClassify p f).type = f.type
    ∧ (applyClassify p f).bbox = f.bbox
    ∧ (applyClassify p f).description = f.description
    ∧ (applyClassify p f).pixel_diff_percent = f.pixel_diff_percent
    ∧ (applyClassify p f).color_delta_e = f.color_delta_e
    ∧ (applyClassify p f).master_crop = f.master_crop
    ∧ (applyClassify p f).sample_crop = f.sample_crop
    ∧ (∀ c, p.comment = some c → (applyClassify p f).comment = c.take 500)
    ∧ (p.comment = none → (applyClassify p f).comment = f.comment) := by
  cases hsv : p.severity with
  | none => cases hc : p.comment <;> simp [applyClassify, hsv, hc]
  | some sv =>
    cases sv with
    | none => cases hc : p.comment <;> simp [applyClassify, hsv, hc]
    | some s => cases hc : p.comment <;> simp [applyClassify, hsv, hc]

/-- C9 (amended): classifying one finding patches only that finding (its
severity, status, comment, and — when a non-null severity is assigned — its
color per the table, while setting severity to null or sending only a comment
leaves the color as stored), recomputes the four per-severity counts from the
updated findings (explicit severities only), and leaves `analysis.verdict`,
`analysis.overallSsim`, `analysis.summary`, `analysis.totalFindings` and
every other finding unchanged. -/
theorem classification_frame_effect (job : Job) (idx : ℕ) (p : ClassifyParams)
    (f : Finding) (h : job.findings[idx]? = some f) :
    classifyFinding job idx p = some ((classifyFinding job idx p).getD job)
    ∧ ((classifyFinding job idx p).getD job).analysis.verdict = job.analysis.verdict
    ∧ ((classifyFinding job idx p).getD job).analysis.overallSsim = job.analysis.overallSsim
    ∧ ((classifyFinding job idx p).getD job).analysis.summary = job.analysis.summary
    ∧ ((classifyFinding job idx p).getD job).analysis.totalFindings
        = job.analysis.totalFindings
    ∧ ((classifyFinding job idx p).getD job).analysis.criticalCount
        = countExplicit ((classifyFinding job idx p).getD job).findings .critical
    ∧ ((classifyFinding job idx p).getD job).analysis.importantCount
        = countExplicit ((classifyFinding job idx p).getD job).findings .important
    ∧ ((classifyFinding job idx p).getD job).analysis.minorCount
        = countExplicit ((classifyFinding job idx p).getD job).findings .minor
    ∧ ((classifyFinding job idx p).getD job).analysis.ignoredCount
        = countExplicit ((classifyFinding job idx p).getD job).findings .ignore
    ∧ (∀ j : ℕ, j ≠ idx →
        ((classifyFinding job idx p).getD job).findings[j]? = job.findings[j]?)
    ∧ ((classifyFinding job idx p).getD job).findings[idx]? = some (applyClassify p f)
    ∧ (∀ sv : Sev4, p.severity = some (some sv) →
        (applyClassify p f).color = classifyColor sv
        ∧ (applyClassify p f).severity = some sv)
    ∧ ((p.severity = some none ∨ p.severity = none) → (applyClassify p f).color = f.color)
    ∧ (applyClassify p f).severity_suggestion = f.severity_suggestion
    ∧ (applyClassify p f).page = f.page
    ∧ (applyClassify p f).type = f.type
    ∧ (applyClassify p f).bbox = f.bbox
    ∧ (applyClassify p f).description = f.description
    ∧ (∀ c, p.comment = some c → (applyClassify p f).comment = c.take 500) := by
  have hidx : idx < job.findings.length := (List.getElem?_eq_some.1 h).1
  have hcf : classifyFinding job idx p = some { job with
      findings := job.findings.set idx (applyClassify p f)
      analysis := { job.analysis with
        criticalCount := countExplicit (job.findings.set idx (applyClassify p f)) .critical
        importantCount := countExplicit (job.findings.set idx (applyClassify p f)) .important
        minorCount := countExplicit (job.findings.set idx (applyClassify p f)) .minor
        ignoredCount := countExplicit (job.findings.set idx (applyClassify p f)) .ignore } } := by
    simp only [classifyFinding, h]
  obtain ⟨ha, hb, -, -, hsug, hpage, htype, hbbox, hdesc, -, -, -, -, hcom, -⟩ :=
    applyClassify_fields p f
  rw [hcf]
  exact ⟨rfl, rfl, rfl, rfl, rfl, rfl, rfl, rfl, rfl,
    fun j hj => List.getElem?_set_ne (Ne.symm hj),
    List.getElem?_set_self hidx,
    ha, hb, hsug, hpage, htype, hbbox, hdesc, hcom⟩

/-- A finding previously classified `important` (color yellow) whose engine
suggestion was `critical`. -/
def cexFinding9 : Finding where
  page := 1
  type := "typography"
  severity := some .important
  severity_suggestion := some .critical
  description := "texto"
  bbox := ⟨0, 0, 1, 1⟩
  color := .yellow
  pixel_diff_percent := 1
  color_delta_e := 0
  master_crop := ""
  sample_crop := ""
  comment := ""
  status := .classified

def cexJob9 : Job := { wJob with status := .inspected, findings := [cexFinding9] }

/-- The finding after the classification action sets severity to null. -/
def classifyNullResult9 : Finding :=
  ((classifyFinding cexJob9 0 ⟨some none, none⟩).getD cexJob9).findings.getD 0 cexFinding9

/-- Counterexample to C9 as stated: setting the severity of this finding to
null leaves its color `yellow` even though its derived color (severity unset,
suggestion `critical`) would be `red` — the derived color is not recomputed. -/
theorem classify_null_frame_cex :
    classifyNullResult9.severity = none
    ∧ classifyNullResult9.severity_suggestion = some .critical
    ∧ classifyNullResult9.color = .yellow
    ∧ classifyNullResult9.color
        ≠ derivedColorSpec classifyNullResult9.severity
            classifyNullResult9.severity_suggestion := by
  decide

/-- Witness for C9 (amended): the verdict survives a concrete classification. -/
theorem classification_frame_effect_witness :
    cexJob9.findings[0]? = some cexFinding9
    ∧ ((classifyFinding cexJob9 0 ⟨some (some .ignore), none⟩).getD cexJob9).analysis.verdict
        = cexJob9.analysis.verdict :=
  ⟨rfl, (classification_frame_effect cexJob9 0 ⟨some (some .ignore), none⟩
    cexFinding9 rfl).2.1⟩

/-! ## C8 — observer reconnect/poll protocol -/

/-- C8: on a transport error the observer schedules the poll/retry after
`min(2000 · attempts, 10000)` ms with the live channel closed; a progress
event resets the attempt counter (terminal events end the lifecycle); once
10 consecutive attempts have failed, a still-running poll result only
re-arms a fixed 3000 ms poll (no reconnect, no counter change); a poll
finding `inspected` stops and signals completion; a poll finding `error`
stops and signals failure with the stored message (or the default when it is
empty); below 10 attempts a still-running poll result retries the live
subscription; and a failed fetch re-polls in 3000 ms. -/
theorem observer_reconnect_poll_protocol (s : ObsState) (m : String)
    (h : s.closed = false) :
    ((obsOnTransportError s).timer = some (min (2000 * s.attempts) 10000)
      ∧ (obsOnTransportError s).live = false)
    ∧ (obsOnProgress s).attempts = 0
    ∧ ((obsOnDone s).closed = true ∧ (obsOnDone s).signal = .completed)
    ∧ ((obsOnErrorEvent s m).closed = true ∧ (obsOnErrorEvent s m).signal = .failed m)
    ∧ (MAX_RECONNECT ≤ s.attempts →
        ∀ (st : Status) (em : String), st ≠ .inspected → st ≠ .error →
          obsOnPollTimer s (.fetched st em) = { s with timer := some 3000 })
    ∧ (∀ em, (obsOnPollTimer s (.fetched .inspected em)).closed = true
        ∧ (obsOnPollTimer s (.fetched .inspected em)).signal = .completed)
    ∧ (∀ em, (obsOnPollTimer s (.fetched .error em)).closed = true
        ∧ (obsOnPollTimer s (.fetched .error em)).signal
            = .failed (if em = "" then "Inspection failed" else em))
    ∧ (s.attempts < MAX_RECONNECT →
        ∀ (st : Status) (em : String), st ≠ .inspected → st ≠ .error →
          (obsOnPollTimer s (.fetched st em)).live = true
          ∧ (obsOnPollTimer s (.fetched st em)).attempts = s.attempts + 1)
    ∧ obsOnPollTimer s .fetchFailed = { s with timer := some 3000 } := by
  refine ⟨⟨?_, ?_⟩, ?_, ⟨?_, ?_⟩, ⟨?_, ?_⟩, ?_, ?_, ?_, ?_, ?_⟩
  · simp [obsOnTransportError, h]
  · simp [obsOnTransportError, h]
  · simp [obsOnProgress, h]
  · simp [obsOnDone, obsCleanup, h]
  · simp [obsOnDone, obsCleanup, h]
  · simp [obsOnErrorEvent, obsCleanup, h]
  · simp [obsOnErrorEvent, obsCleanup, h]
  · intro hge st em h1 h2
    have hnl : ¬ s.attempts < MAX_RECONNECT := not_lt.2 hge
    cases st with
    | inspected => exact absurd rfl h1
    | error => exact absurd rfl h2
    | pending => simp [obsOnPollTimer, h, hnl]
    | processing => simp [obsOnPollTimer, h, hnl]
  · intro em; constructor <;> simp [obsOnPollTimer, obsCleanup, h]
  · intro em; constructor <;> simp [obsOnPollTimer, obsCleanup, h]
  · intro hlt st em h1 h2
    cases st with
    | inspected => exact absurd rfl h1
    | error => exact absurd rfl h2
    | pending => constructor <;> simp [obsOnPollTimer, obsConnect, h, hlt]
    | processing => constructor <;> simp [obsOnPollTimer, obsConnect, h, hlt]
  · simp [obsOnPollTimer, h]

/-- An observer three failed attempts in. -/
def wObs : ObsState := ⟨false, 3, false, none, .waiting⟩

/-- Witness for C8 at a concrete observer state. -/
theorem observer_reconnect_poll_protocol_witness :
    wObs.closed = false
    ∧ (obsOnTransportError wObs).timer = some (min (2000 * wObs.attempts) 10000)
    ∧ obsOnPollTimer wObs .fetchFailed = { wObs with timer := some 3000 } :=
  ⟨rfl, (observer_reconnect_poll_protocol wObs "x" rfl).1.1,
   (observer_reconnect_poll_protocol wObs "x" rfl).2.2.2.2.2.2.2.2⟩

/-! ## C4 — opening the stream on a terminal job -/

/-- C4 (amended): opening the stream for a job already `inspected`
immediately delivers a single `done` event and does not register the client;
opening it for a job in any other stored status — including `error` —
registers the client with no immediate events; in no case is earlier
progress replayed (the only immediate event ever written is `done`). -/
theorem stream_open_terminal_behavior (st : Status) :
    streamOpen (some .inspected) = ⟨true, [Event.done], false⟩
    ∧ streamOpen (some .error) = ⟨true, [], true⟩
    ∧ ((streamOpen (some st)).registered = true →
        (streamOpen (some st)).immediateEvents = [])
    ∧ (∀ e ∈ (streamOpen (some st)).immediateEvents, e = Event.done) := by
  refine ⟨rfl, rfl, ?_, ?_⟩ <;> cases st <;> simp [streamOpen]

/-- Counterexample to C4 as stated: opening the stream for a job whose
stored status is `error` delivers no terminal `error` event at all — the
client is simply registered. -/
theorem stream_error_status_cex :
    (streamOpen (some Status.error)).immediateEvents = []
    ∧ (streamOpen (some Status.error)).registered = true
    ∧ ¬ ∃ msg, Event.error msg ∈ (streamOpen (some Status.error)).immediateEvents := by
  refine ⟨rfl, rfl, ?_⟩
  rintro ⟨msg, hmsg⟩
  simp [streamOpen] at hmsg

/-- Witness for C4 (amended) at the `error` status. -/
theorem stream_open_terminal_behavior_witness :
    (streamOpen (some Status.error)).registered = true
    ∧ (streamOpen (some Status.error)).immediateEvents = [] :=
  ⟨rfl, (stream_open_terminal_behavior Status.error).2.2.1 rfl⟩

/-- A zero-page environment. -/
def wEnv0 : Env where
  masterConv := .ok ⟨0, [], "pdf"⟩
  sampleConv := .ok ⟨0, [], "pdf"⟩
  engineOk := true
  engine := fun _ => .ok wRes1
  apiKeyPresent := false
  enhancer := .ok none

/-- Witness for C10 at a concrete zero-page environment. -/
theorem zero_pages_inspected_review_witness :
    (min (0 : ℕ) 0 = 0)
    ∧ ((runRecord wEnv0 wJob).status = .inspected
       ∧ (runRecord wEnv0 wJob).findings = []
       ∧ (runRecord wEnv0 wJob).analysis.overallSsim = 0
       ∧ (runRecord wEnv0 wJob).analysis.verdict = .review) :=
  ⟨rfl, zero_pages_inspected_review wEnv0 wJob ⟨0, [], "pdf"⟩ ⟨0, [], "pdf"⟩ rfl rfl rfl rfl⟩

end QC
